import Mathlib

/-!
# AdaptiveUI: the contextual bandit of `src/AdaptiveUI/app.js`

A shallow embedding of the adaptive policy engine of the page script:
the context classifier, the policy key, epsilon-greedy selection, the
incremental-mean update, reward shaping, the persistence helpers and the
event handlers that drive them.

Modelling conventions.
* JavaScript numbers are exact rationals (`ℚ`); visit counts are naturals.
* `Math.random()` is passed in as explicit draws, `Date.now()` as an explicit
  millisecond timestamp, and the signals read by `context()` as arguments.
* `localStorage` is a finite map from keys to strings, threaded explicitly.
* A JavaScript object used as a map (`policy.q`, `policy.n`) is a function
  from property name to `Option`; `none` is a missing property.
* `Policy.load` returns a parsed JSON value; the bandit works on the typed
  record `Policy`, read off a loaded value by `Policy.ofJson`.
* `JSON.stringify` is a parameter of the functions that write to storage.
* DOM effects (cards, modal, theme classes) are not part of the state.
-/

namespace AdaptiveUI

/-! ## Data -/

/-- One entry of the `VARIANTS` catalog. -/
structure Variant where
  id : String
  classes : List String
  theme : String
  description : String
  deriving DecidableEq, Repr

/-- The fixed catalog `VARIANTS`, in declared order. -/
def VARIANTS : List Variant :=
  [ { id := "A", classes := ["dense", "small-cards"], theme := "dark",
      description := "Dense + Small Cards + Dark" },
    { id := "B", classes := ["spacious", "small-cards"], theme := "light",
      description := "Spacious + Small Cards + Light" },
    { id := "C", classes := ["dense", "large-cards"], theme := "dark",
      description := "Dense + Large Cards + Dark" },
    { id := "D", classes := ["spacious", "large-cards"], theme := "light",
      description := "Spacious + Large Cards + Light" } ]

/-- One entry of the `SAMPLE` content list. -/
structure Item where
  id : ℚ
  title : String
  text : String
  url : String

/-- The content list `SAMPLE`. -/
def SAMPLE : List Item :=
  [ { id := 1, title := "Keyboard Shortcuts",
      text := "Boost productivity by learning essential shortcuts.",
      url := "https://support.microsoft.com/en-us/windows/keyboard-shortcuts-2bee0b6b-4765-4d3e-31af-8e9aeb0f6ada" },
    { id := 2, title := "Focus Mode",
      text := "Hide distractions automatically when your intent is deep work.",
      url := "https://www.notion.so/product" },
    { id := 3, title := "Adaptive Layouts",
      text := "Interfaces that change density and spacing based on your behavior.",
      url := "https://material.io/design/layout/understanding-layout" },
    { id := 4, title := "Personalized Themes",
      text := "Let the system learn your preferred theme under different contexts.",
      url := "https://developer.mozilla.org/docs/Web/CSS/@media/prefers-color-scheme" },
    { id := 5, title := "Smart Recos",
      text := "Surface the most relevant items for the moment.",
      url := "https://dl.acm.org/doi/10.1145/1772690.1772758" } ]

/-- The object returned by `context()`. -/
structure Context where
  hourBucket : String
  widthBucket : String
  prefersDark : Bool
  deriving DecidableEq, Repr

/-- The body of `context()`; `hour` is `new Date().getHours()`, `width` is
`window.innerWidth` and `prefersDark` the media-query result. -/
def context (hour width : ℤ) (prefersDark : Bool) : Context :=
  let hourBucket := if hour < 8 then "morning" else if hour < 16 then "day" else "evening"
  let widthBucket := if width < 600 then "narrow" else if width < 1200 then "medium" else "wide"
  { hourBucket := hourBucket, widthBucket := widthBucket, prefersDark := prefersDark }

/-- The policy key `k(variantId, ctx)`: the four parts joined by `|`. -/
def k (variantId : String) (ctx : Context) : String :=
  variantId ++ "|" ++ ctx.hourBucket ++ "|" ++ ctx.widthBucket ++ "|" ++
    (if ctx.prefersDark then "D" else "L")

/-- The in-memory policy record `{ q, n, epsilon }`. -/
structure Policy where
  q : String → Option ℚ
  n : String → Option ℕ
  epsilon : ℚ

/-- The literal `{ q:{}, n:{}, epsilon: 0.15 }` as a policy record. -/
def Policy.initial : Policy :=
  { q := fun _ => none, n := fun _ => none, epsilon := 15 / 100 }

/-! ## Selection -/

/-- The comparison `qv > bestQ`, where `bestQ = none` stands for `-Infinity`. -/
def gtBest (qv : ℚ) : Option ℚ → Bool
  | none => true
  | some b => decide (b < qv)

/-- The value `policy.q[k(v.id, ctx)] ?? 0` read by the exploitation loop. -/
def qValue (policy : Policy) (ctx : Context) (v : Variant) : ℚ :=
  (policy.q (k v.id ctx)).getD 0

/-- One iteration of the exploitation loop over the catalog. -/
def scanStep (policy : Policy) (ctx : Context) (acc : Variant × Option ℚ) (v : Variant) :
    Variant × Option ℚ :=
  let qv := qValue policy ctx v
  if gtBest qv acc.2 then (v, some qv) else acc

/-- The exploitation branch of `selectVariant`: `best` starts at `VARIANTS[0]`,
`bestQ` at `-Infinity`, and the catalog is scanned in order. -/
def exploit (policy : Policy) (ctx : Context) : Option Variant :=
  match VARIANTS with
  | [] => none
  | v0 :: _ => some (VARIANTS.foldl (scanStep policy ctx) (v0, none)).1

/-- Array indexing `xs[i]` for a number `i`; `none` is `undefined`. -/
def index {α : Type} (xs : List α) (i : ℤ) : Option α :=
  if i < 0 then none else xs.get? i.toNat

/-- The function `selectVariant(policy, ctx)`; `r1` and `r2` are the results of the
first and second call of `Math.random()`. A result `none` is `undefined`. -/
def selectVariant (r1 r2 : ℚ) (policy : Policy) (ctx : Context) : Option Variant :=
  if r1 < policy.epsilon then index VARIANTS ⌊r2 * (VARIANTS.length : ℚ)⌋
  else exploit policy ctx

/-! ## JSON values and `JSON.parse`

`JSON.parse` is a platform function; it is modelled here as a recursive-descent
parser of the JSON grammar over the characters of the text. -/

/-- A value produced by `JSON.parse`. An object is its list of properties. -/
inductive Json where
  | null
  | bool (b : Bool)
  | num (x : ℚ)
  | str (s : String)
  | arr (xs : List Json)
  | obj (kvs : List (String × Json))

/-- Property assignment `o[name] = v` on a property list. -/
def setProp (kvs : List (String × Json)) (name : String) (v : Json) : List (String × Json) :=
  match kvs with
  | [] => [(name, v)]
  | (a, w) :: rest => if a = name then (a, v) :: rest else (a, w) :: setProp rest name v

/-- Property read `o[name]`; `none` is `undefined`. -/
def Json.prop (o : Json) (name : String) : Option Json :=
  match o with
  | .obj kvs => kvs.lookup name
  | _ => none

def isWs (c : Char) : Bool := c = ' ' || c = '\t' || c = '\n' || c = '\r'

def skipWs : List Char → List Char
  | [] => []
  | c :: cs => if isWs c then skipWs cs else c :: cs

def digitVal (c : Char) : Option ℕ :=
  if 48 ≤ c.toNat ∧ c.toNat ≤ 57 then some (c.toNat - 48) else none

def hexVal (c : Char) : Option ℕ :=
  if 48 ≤ c.toNat ∧ c.toNat ≤ 57 then some (c.toNat - 48)
  else if 97 ≤ c.toNat ∧ c.toNat ≤ 102 then some (c.toNat - 87)
  else if 65 ≤ c.toNat ∧ c.toNat ≤ 70 then some (c.toNat - 55)
  else none

/-- The longest run of decimal digits at the front, as digit values. -/
def takeDigits : List Char → List ℕ × List Char
  | [] => ([], [])
  | c :: cs =>
    match digitVal c with
    | some d => let r := takeDigits cs; (d :: r.1, r.2)
    | none => ([], c :: cs)

def natOfDigits (ds : List ℕ) : ℕ := ds.foldl (fun a d => 10 * a + d) 0

/-- The integer part of a JSON number: `0`, or a digit run not starting with `0`. -/
def parseInt (cs : List Char) : Option (ℕ × List Char) :=
  match takeDigits cs with
  | ([], _) => none
  | ([d], r) => some (d, r)
  | (0 :: _ :: _, _) => none
  | (ds, r) => some (natOfDigits ds, r)

/-- The optional fraction `.digits` of a JSON number. -/
def parseFrac (cs : List Char) : Option (ℚ × List Char) :=
  match cs with
  | '.' :: r =>
    match takeDigits r with
    | ([], _) => none
    | (ds, r) => some ((natOfDigits ds : ℚ) / (10 : ℚ) ^ ds.length, r)
  | _ => some (0, cs)

/-- The optional exponent of a JSON number, as the factor it multiplies by. -/
def parseExp (cs : List Char) : Option (ℚ × List Char) :=
  let digits (neg : Bool) (r : List Char) : Option (ℚ × List Char) :=
    match takeDigits r with
    | ([], _) => none
    | (ds, r) => some (if neg then 1 / (10 : ℚ) ^ natOfDigits ds else (10 : ℚ) ^ natOfDigits ds, r)
  let signed (r : List Char) : Option (ℚ × List Char) :=
    match r with
    | '+' :: r => digits false r
    | '-' :: r => digits true r
    | _ => digits false r
  match cs with
  | 'e' :: r => signed r
  | 'E' :: r => signed r
  | _ => some (1, cs)

def parseUnsigned (cs : List Char) : Option (ℚ × List Char) :=
  match parseInt cs with
  | none => none
  | some (i, r) =>
    match parseFrac r with
    | none => none
    | some (f, r) =>
      match parseExp r with
      | none => none
      | some (e, r) => some (((i : ℚ) + f) * e, r)

def parseNumber (cs : List Char) : Option (ℚ × List Char) :=
  match cs with
  | '-' :: r => (parseUnsigned r).map fun p => (-p.1, p.2)
  | _ => parseUnsigned cs

/-- Four hexadecimal digits of a `\u` escape, as a code unit. -/
def parseHex4 (cs : List Char) : Option (ℕ × List Char) :=
  match cs with
  | a :: b :: c :: d :: r =>
    match hexVal a, hexVal b, hexVal c, hexVal d with
    | some a, some b, some c, some d => some (((a * 16 + b) * 16 + c) * 16 + d, r)
    | _, _, _, _ => none
  | _ => none

/-- The characters of a string literal after its opening quote. A surrogate pair
of `\u` escapes is one character; an unpaired surrogate reads as U+FFFD. -/
def parseChars : ℕ → List Char → Option (List Char × List Char)
  | 0, _ => none
  | fuel + 1, cs =>
    match cs with
    | [] => none
    | '"' :: r => some ([], r)
    | '\\' :: e :: r =>
      let simple (c : Char) (r : List Char) : Option (List Char × List Char) :=
        (parseChars fuel r).map fun p => (c :: p.1, p.2)
      match e with
      | '"' => simple '"' r
      | '\\' => simple '\\' r
      | '/' => simple '/' r
      | 'b' => simple (Char.ofNat 8) r
      | 'f' => simple (Char.ofNat 12) r
      | 'n' => simple '\n' r
      | 'r' => simple '\r' r
      | 't' => simple '\t' r
      | 'u' =>
        match parseHex4 r with
        | none => none
        | some (hi, r1) =>
          if 0xD800 ≤ hi ∧ hi < 0xDC00 then
            match r1 with
            | '\\' :: 'u' :: r2 =>
              match parseHex4 r2 with
              | none => none
              | some (lo, r3) =>
                if 0xDC00 ≤ lo ∧ lo < 0xE000 then
                  simple (Char.ofNat (0x10000 + (hi - 0xD800) * 0x400 + (lo - 0xDC00))) r3
                else simple (Char.ofNat 0xFFFD) r1
            | _ => simple (Char.ofNat 0xFFFD) r1
          else if 0xDC00 ≤ hi ∧ hi < 0xE000 then simple (Char.ofNat 0xFFFD) r1
          else simple (Char.ofNat hi) r1
      | _ => none
    | c :: r =>
      if c.toNat < 32 then none
      else (parseChars fuel r).map fun p => (c :: p.1, p.2)

def parseString (fuel : ℕ) (cs : List Char) : Option (String × List Char) :=
  (parseChars fuel cs).map fun p => (String.mk p.1, p.2)

mutual
/-- One JSON value at the front of the text, and the rest of the text. -/
def parseValue : ℕ → List Char → Option (Json × List Char)
  | 0, _ => none
  | fuel + 1, cs =>
    match skipWs cs with
    | 'n' :: 'u' :: 'l' :: 'l' :: r => some (.null, r)
    | 't' :: 'r' :: 'u' :: 'e' :: r => some (.bool true, r)
    | 'f' :: 'a' :: 'l' :: 's' :: 'e' :: r => some (.bool false, r)
    | '"' :: r => (parseString (fuel + 1) r).map fun p => (.str p.1, p.2)
    | '[' :: r =>
      match skipWs r with
      | ']' :: r => some (.arr [], r)
      | r => (parseElems fuel r).map fun p => (.arr p.1, p.2)
    | '{' :: r =>
      match skipWs r with
      | '}' :: r => some (.obj [], r)
      | r => (parseMembers fuel r).map fun p => (.obj (p.1.foldl (fun o m => setProp o m.1 m.2) []), p.2)
    | r => (parseNumber r).map fun p => (.num p.1, p.2)
/-- The elements of a non-empty array, up to and including the closing bracket. -/
def parseElems : ℕ → List Char → Option (List Json × List Char)
  | 0, _ => none
  | fuel + 1, cs =>
    match parseValue fuel cs with
    | none => none
    | some (v, r) =>
      match skipWs r with
      | ',' :: r => (parseElems fuel r).map fun p => (v :: p.1, p.2)
      | ']' :: r => some ([v], r)
      | _ => none
/-- The members of a non-empty object, up to and including the closing brace. -/
def parseMembers : ℕ → List Char → Option (List (String × Json) × List Char)
  | 0, _ => none
  | fuel + 1, cs =>
    match skipWs cs with
    | '"' :: r =>
      match parseString (fuel + 1) r with
      | none => none
      | some (name, r) =>
        match skipWs r with
        | ':' :: r =>
          match parseValue fuel r with
          | none => none
          | some (v, r) =>
            match skipWs r with
            | ',' :: r => (parseMembers fuel r).map fun p => ((name, v) :: p.1, p.2)
            | '}' :: r => some ([(name, v)], r)
            | _ => none
        | _ => none
    | _ => none
end

/-- The conversion of the argument of `JSON.parse` to a string: `null` is `"null"`. -/
def toText : Option String → String
  | none => "null"
  | some s => s

/-- The function `JSON.parse`; `none` is a thrown `SyntaxError`. -/
def JSON_parse (text : Option String) : Option Json :=
  let cs := (toText text).data
  match parseValue (2 * cs.length + 2) cs with
  | none => none
  | some (v, r) => if skipWs r = [] then some v else none

/-! ## Persistence helpers -/

/-- The contents of `localStorage`. -/
abbrev Storage := String → Option String

def LS_POLICY_KEY : String := "banditPolicy_v1"
def LS_FAVS_KEY : String := "favorites_v1"

/-- The call `localStorage.getItem(key)`; `none` is `null`. -/
def getItem (ls : Storage) (key : String) : Option String := ls key

/-- The call `localStorage.setItem(key, value)`. -/
def setItem (ls : Storage) (key value : String) : Storage :=
  fun x => if x = key then some value else ls x

/-- The call `localStorage.removeItem(key)`. -/
def removeItem (ls : Storage) (key : String) : Storage :=
  fun x => if x = key then none else ls x

/-- The operator `v ?? d` on a parsed value: `d` exactly when `v` is `null`. -/
def nullish (v d : Json) : Json :=
  match v with
  | .null => d
  | _ => v

/-- The literal `{ q:{}, n:{}, epsilon: 0.15 }` as a value. -/
def defaultPolicy : Json :=
  .obj [("q", .obj []), ("n", .obj []), ("epsilon", .num (15 / 100))]

/-- The method `Policy.load()`: the parsed blob, or the default when the parse throws or
yields `null`. -/
def Policy.load (ls : Storage) : Json :=
  match JSON_parse (getItem ls LS_POLICY_KEY) with
  | some v => nullish v defaultPolicy
  | none => defaultPolicy

/-- The method `Policy.reset()`. -/
def Policy.reset (ls : Storage) : Storage := removeItem ls LS_POLICY_KEY

/-- The reads the bandit performs on a loaded value: `policy.q[key]`, `policy.n[key]` and
`policy.epsilon`, each present only when it is a number (a count when it is a natural
number). -/
def Policy.ofJson (j : Json) : Policy :=
  { q := fun key =>
      match (j.prop "q").bind (fun o => o.prop key) with
      | some (.num x) => some x
      | _ => none
    n := fun key =>
      match (j.prop "n").bind (fun o => o.prop key) with
      | some (.num x) => if x.den = 1 ∧ 0 ≤ x.num then some x.num.toNat else none
      | _ => none
    epsilon :=
      match j.prop "epsilon" with
      | some (.num x) => x
      | _ => 0 }

/-- The platform function `JSON.stringify`, at the two types the script calls it on. -/
structure Stringify where
  policy : Policy → String
  items : List Json → String

/-- The method `Policy.save(p)`. -/
def Policy.save (S : Stringify) (ls : Storage) (p : Policy) : Storage :=
  setItem ls LS_POLICY_KEY (S.policy p)

/-- The equality a `Set` uses for its members; parsed arrays and objects are
distinct references and equal nothing else. -/
def sameValueZero : Json → Json → Bool
  | .null, .null => true
  | .bool a, .bool b => a == b
  | .num a, .num b => decide (a = b)
  | .str a, .str b => a == b
  | _, _ => false

/-- The method `set.has(x)` on a set held as its members in insertion order. -/
def setHas (s : List Json) (x : Json) : Bool := s.any (sameValueZero x)

/-- The method `set.add(x)`. -/
def setAdd (s : List Json) (x : Json) : List Json := if setHas s x then s else s ++ [x]

/-- The method `set.delete(x)`. -/
def setDelete (s : List Json) (x : Json) : List Json := s.filter fun y => !sameValueZero x y

/-- The constructor `new Set(v)`; `none` is the `TypeError` for a value that is not
iterable. A string iterates over its characters. -/
def newSet : Json → Option (List Json)
  | .arr xs => some (xs.foldl setAdd [])
  | .str t => some ((t.data.map fun c => Json.str (String.mk [c])).foldl setAdd [])
  | _ => none

/-- The method `Favorites.load()`. -/
def Favorites.load (ls : Storage) : List Json :=
  match JSON_parse (getItem ls LS_FAVS_KEY) with
  | none => []
  | some v => (newSet (nullish v (.arr []))).getD []

/-- The method `Favorites.save(set)`. -/
def Favorites.save (S : Stringify) (ls : Storage) (set : List Json) : Storage :=
  setItem ls LS_FAVS_KEY (S.items set)

/-! ## Update -/

/-- Assignment `m[key] = v` on an object used as a map. -/
def assign {α : Type} (m : String → Option α) (key : String) (v : α) : String → Option α :=
  fun x => if x = key then some v else m x

/-- The function `updatePolicy(policy, variant, ctx, reward)`: the mutated policy and the
storage after `Policy.save`. -/
def updatePolicy (S : Stringify) (ls : Storage) (policy : Policy) (variant : Variant)
    (ctx : Context) (reward : ℚ) : Policy × Storage :=
  let key := k variant.id ctx
  let n := (policy.n key).getD 0 + 1
  let q := (policy.q key).getD 0
  let policy' : Policy :=
    { q := assign policy.q key (q + (reward - q) / (n : ℚ)), n := assign policy.n key n,
      epsilon := policy.epsilon }
  (policy', Policy.save S ls policy')

/-- Repeated `updatePolicy` on one variant and context, with the rewards in order. -/
def updateMany (S : Stringify) (ls : Storage) (policy : Policy) (variant : Variant)
    (ctx : Context) (rewards : List ℚ) : Policy × Storage :=
  rewards.foldl (fun st r => updatePolicy S st.2 st.1 variant ctx r) (policy, ls)

/-! ## Rewards and actions -/

/-- The function `baseReward(action)`. -/
def baseReward (action : String) : ℚ :=
  if action = "open" then 1
  else if action = "fav" then 2
  else if action = "dismiss" then -1
  else 0

/-- The function `dwellBonus()`, with `now` the value of `Date.now()`. -/
def dwellBonus (now sessionStart : ℤ) : ℚ :=
  let seconds := ((now - sessionStart : ℤ) : ℚ) / 1000
  max 0 (min 1 (seconds / 30))

/-! ## The running page -/

/-- The script's module-level variables, and `localStorage`. -/
structure App where
  policy : Policy
  favorites : List Json
  sessionStart : ℤ
  currentVariant : Option Variant
  currentCtx : Option Context
  storage : Storage

/-- Evaluation of the script's top level at time `now`. -/
def boot (now : ℤ) (ls : Storage) : App :=
  { policy := Policy.ofJson (Policy.load ls)
    favorites := Favorites.load ls
    sessionStart := now
    currentVariant := none
    currentCtx := none
    storage := ls }

/-- The (re)selection performed by `main()` and by the resize handler. -/
def reselect (hour width : ℤ) (prefersDark : Bool) (r1 r2 : ℚ) (st : App) : App :=
  let ctx := context hour width prefersDark
  { st with currentCtx := some ctx, currentVariant := selectVariant r1 r2 st.policy ctx }

/-- The reward `baseReward(act) + dwellBonus()` computed by the card click handler. -/
def clickReward (now : ℤ) (act : String) (st : App) : ℚ :=
  baseReward act + dwellBonus now st.sessionStart

/-- The favorites after the visual part of the card click handler. -/
def clickFavorites (act : String) (id : ℚ) (favorites : List Json) : List Json :=
  if act = "fav" then
    let newFav := !setHas favorites (.num id)
    if newFav then setAdd favorites (.num id) else setDelete favorites (.num id)
  else favorites

/-- The lookup `SAMPLE.find(x => x.id === id)`; `none` is `undefined`. -/
def findItem (id : ℚ) : Option Item := SAMPLE.find? fun x => decide (x.id = id)

/-- The card click handler for a button with `data-action` equal to `act` on the card
with `data-id` equal to `id`. For `open` on an id that is not in `SAMPLE`, `handleOpen`
throws at `item.title` and nothing changes. When no variant or context is current,
`updatePolicy` throws at `variant.id` and the policy stays as it was. -/
def cardClick (S : Stringify) (now : ℤ) (act : String) (id : ℚ) (st : App) : App :=
  if act = "open" ∧ (findItem id).isNone then st
  else
    let favorites := clickFavorites act id st.favorites
    let storage := if act = "fav" then Favorites.save S st.storage favorites else st.storage
    let reward := clickReward now act st
    match st.currentVariant, st.currentCtx with
    | some v, some c =>
      let r := updatePolicy S storage st.policy v c reward
      { st with favorites := favorites, policy := r.1, storage := r.2 }
    | _, _ => { st with favorites := favorites, storage := storage }

/-- The handler of the reset button: `Policy.reset(); policy = Policy.load();`. -/
def resetClick (st : App) : App :=
  let storage := Policy.reset st.storage
  { st with storage := storage, policy := Policy.ofJson (Policy.load storage) }

/-- What can happen to the page after the script has been evaluated, each with the time
`now` at which it happens. Only the card click handler reads the clock. -/
inductive Event where
  | main (now hour width : ℤ) (prefersDark : Bool) (r1 r2 : ℚ)
  | resize (now hour width : ℤ) (prefersDark : Bool) (r1 r2 : ℚ)
  | click (now : ℤ) (act : String) (id : ℚ)
  | reset (now : ℤ)

/-- The effect of one event on the page. -/
def step (S : Stringify) (st : App) : Event → App
  | .main _ hour width dark r1 r2 => reselect hour width dark r1 r2 st
  | .resize _ hour width dark r1 r2 => reselect hour width dark r1 r2 st
  | .click now act id => cardClick S now act id st
  | .reset _ => resetClick st

/-- The page after a sequence of events, starting from the script's evaluation at time
`start` over the storage `ls`. -/
def run (S : Stringify) (start : ℤ) (ls : Storage) (events : List Event) : App :=
  events.foldl (step S) (boot start ls)

/-! ## Notions taken from the specification -/

/-- The specification's dwell clock: the time of the most recent variant selection among
the events (`main` or `resize`), if any. -/
def specDwellClock : List Event → Option ℤ
  | [] => none
  | e :: rest =>
    match specDwellClock rest with
    | some t => some t
    | none =>
      match e with
      | .main now _ _ _ _ _ => some now
      | .resize now _ _ _ _ _ => some now
      | _ => none

/-- The specification's shape of a policy record: an object whose `q` and `n` are
objects and whose `epsilon` is a number. -/
def specPolicyRecord (j : Json) : Bool :=
  match j.prop "q", j.prop "n", j.prop "epsilon" with
  | some (.obj _), some (.obj _), some (.num _) => true
  | _, _, _ => false

/-! ## Theorems -/

/-- C8. Context bucketing is total and follows the fixed thresholds: for every integer
hour (in particular 0..23) the hour bucket is morning iff `h < 8`, day iff `8 ≤ h < 16`,
evening iff `16 ≤ h`; for every integer width the width bucket is narrow iff `w < 600`,
medium iff `600 ≤ w < 1200`, wide iff `1200 ≤ w`; `prefersDark` is passed through; each
bucket is one of its three names. -/
theorem context_buckets (h w : ℤ) (d : Bool) :
    (((context h w d).hourBucket = "morning" ↔ h < 8) ∧
      ((context h w d).hourBucket = "day" ↔ 8 ≤ h ∧ h < 16) ∧
      ((context h w d).hourBucket = "evening" ↔ 16 ≤ h)) ∧
    (((context h w d).widthBucket = "narrow" ↔ w < 600) ∧
      ((context h w d).widthBucket = "medium" ↔ 600 ≤ w ∧ w < 1200) ∧
      ((context h w d).widthBucket = "wide" ↔ 1200 ≤ w)) ∧
    (context h w d).prefersDark = d ∧
    (context h w d).hourBucket ∈ ["morning", "day", "evening"] ∧
    (context h w d).widthBucket ∈ ["narrow", "medium", "wide"] := by
  have e1 : ("day" : String) ≠ "morning" := by decide
  have e2 : ("evening" : String) ≠ "morning" := by decide
  have e3 : ("evening" : String) ≠ "day" := by decide
  have e4 : ("medium" : String) ≠ "narrow" := by decide
  have e5 : ("wide" : String) ≠ "narrow" := by decide
  have e6 : ("wide" : String) ≠ "medium" := by decide
  refine ⟨⟨?_, ?_, ?_⟩, ⟨?_, ?_, ?_⟩, rfl, ?_, ?_⟩
  all_goals simp only [context]
  all_goals split_ifs <;> simp_all [Ne.symm] <;> omega

/-! ## The update rule -/

theorem assign_same {α : Type} (m : String → Option α) (key : String) (v : α) :
    assign m key v key = some v := by
  simp [assign]

theorem assign_other {α : Type} (m : String → Option α) (key x : String) (v : α)
    (h : x ≠ key) : assign m key v x = m x := by
  simp [assign, h]

theorem updatePolicy_n (S : Stringify) (ls : Storage) (p : Policy) (v : Variant) (c : Context)
    (r : ℚ) :
    (updatePolicy S ls p v c r).1.n (k v.id c) = some ((p.n (k v.id c)).getD 0 + 1) := by
  simp [updatePolicy, assign]

theorem updatePolicy_q (S : Stringify) (ls : Storage) (p : Policy) (v : Variant) (c : Context)
    (r : ℚ) :
    (updatePolicy S ls p v c r).1.q (k v.id c) =
      some ((p.q (k v.id c)).getD 0 +
        (r - (p.q (k v.id c)).getD 0) / (((p.n (k v.id c)).getD 0 + 1 : ℕ) : ℚ)) := by
  simp [updatePolicy, assign]

theorem updateMany_cons (S : Stringify) (ls : Storage) (p : Policy) (v : Variant) (c : Context)
    (r : ℚ) (rs : List ℚ) :
    updateMany S ls p v c (r :: rs) =
      updateMany S (updatePolicy S ls p v c r).2 (updatePolicy S ls p v c r).1 v c rs := by
  simp [updateMany]

/-- The running-mean invariant: if the key holds count `m` and a value whose product with
`m` is `s`, then after folding a non-empty `rs` it holds count `m + |rs|` and the value
`(s + Σ rs) / (m + |rs|)`. -/
theorem updateMany_mean (v : Variant) (c : Context) (S : Stringify) (rs : List ℚ) :
    ∀ (ls : Storage) (p : Policy) (m : ℕ) (s : ℚ),
      (p.n (k v.id c)).getD 0 = m → (p.q (k v.id c)).getD 0 * (m : ℚ) = s → rs ≠ [] →
      (updateMany S ls p v c rs).1.n (k v.id c) = some (m + rs.length) ∧
      (updateMany S ls p v c rs).1.q (k v.id c) =
        some ((s + rs.sum) / ((m + rs.length : ℕ) : ℚ)) := by
  induction rs with
  | nil => intro _ _ _ _ _ _ h; exact absurd rfl h
  | cons r rs ih =>
    intro ls p m s hm hs _
    rw [updateMany_cons]
    have hn1 := updatePolicy_n S ls p v c r
    have hq1 := updatePolicy_q S ls p v c r
    rw [hm] at hn1 hq1
    have hpos : ((m + 1 : ℕ) : ℚ) ≠ 0 := by positivity
    have hval : ((p.q (k v.id c)).getD 0 + (r - (p.q (k v.id c)).getD 0) / ((m + 1 : ℕ) : ℚ)) *
        ((m + 1 : ℕ) : ℚ) = s + r := by
      field_simp
      rw [← hs]
      ring
    by_cases hrs : rs = []
    · subst hrs
      simp only [updateMany, List.foldl_nil, List.length_singleton, List.sum_singleton]
      refine ⟨hn1, ?_⟩
      rw [hq1, ← hval]
      congr 1
      field_simp
    · have h := ih (updatePolicy S ls p v c r).2 (updatePolicy S ls p v c r).1 (m + 1) (s + r)
        (by rw [hn1]; rfl) (by rw [hq1]; exact hval) hrs
      obtain ⟨h1, h2⟩ := h
      refine ⟨?_, ?_⟩
      · rw [h1, List.length_cons]; congr 1; omega
      · rw [h2, List.length_cons, List.sum_cons]
        congr 2
        · ring
        · congr 1; omega

/-- C1. Incremental mean law: when the key of `(variant, ctx)` is absent from the policy
(no count is recorded for it), applying `updatePolicy` to that key with a non-empty
sequence of rewards, in order, leaves `n[key]` equal to the number of rewards and
`q[key]` equal to their arithmetic mean (rewards as exact rationals). -/
theorem updatePolicy_incremental_mean (S : Stringify) (ls : Storage) (p : Policy)
    (v : Variant) (c : Context) (rs : List ℚ) (hne : rs ≠ [])
    (hn : p.n (k v.id c) = none) :
    (updateMany S ls p v c rs).1.n (k v.id c) = some rs.length ∧
    (updateMany S ls p v c rs).1.q (k v.id c) = some (rs.sum / (rs.length : ℚ)) := by
  have h := updateMany_mean v c S rs ls p 0 0 (by rw [hn]; rfl) (by simp) hne
  simpa using h

/-- C1, scenario: rewards 1, 2, 3 on key `("A", day, medium, L)` of the initial policy give
`n = 3` and `q = 2`. -/
theorem updatePolicy_incremental_mean_witness :
    k "A" (context 12 800 false) = "A|day|medium|L" ∧
    (updateMany ⟨fun _ => "", fun _ => ""⟩ (fun _ => none) Policy.initial
      ⟨"A", ["dense", "small-cards"], "dark", "Dense + Small Cards + Dark"⟩
      (context 12 800 false) [1, 2, 3]).1.n "A|day|medium|L" = some 3 ∧
    (updateMany ⟨fun _ => "", fun _ => ""⟩ (fun _ => none) Policy.initial
      ⟨"A", ["dense", "small-cards"], "dark", "Dense + Small Cards + Dark"⟩
      (context 12 800 false) [1, 2, 3]).1.q "A|day|medium|L" = some 2 := by
  have hk : k "A" (context 12 800 false) = "A|day|medium|L" := by decide
  have h := updatePolicy_incremental_mean ⟨fun _ => "", fun _ => ""⟩ (fun _ => none)
    Policy.initial ⟨"A", ["dense", "small-cards"], "dark", "Dense + Small Cards + Dark"⟩
    (context 12 800 false) [1, 2, 3] (by simp) rfl
  rw [hk] at h
  refine ⟨hk, h.1, ?_⟩
  rw [h.2]
  norm_num

/-! ## The policy key -/

theorem split_at_bar (a : List Char) :
    ∀ (a' r r' : List Char), '|' ∉ a → '|' ∉ a' → a ++ '|' :: r = a' ++ '|' :: r' →
      a = a' ∧ r = r' := by
  induction a with
  | nil =>
    intro a' r r' _ ha' h
    cases a' with
    | nil => simpa using h
    | cons x xs =>
      simp only [List.nil_append, List.cons_append, List.cons.injEq] at h
      exact absurd (by simp [← h.1]) ha'
  | cons y ys ih =>
    intro a' r r' ha ha' h
    cases a' with
    | nil =>
      simp only [List.nil_append, List.cons_append, List.cons.injEq] at h
      exact absurd (by simp [h.1]) ha
    | cons x xs =>
      simp only [List.cons_append, List.cons.injEq] at h
      have := ih xs r r' (fun hm => ha (List.mem_cons_of_mem _ hm))
        (fun hm => ha' (List.mem_cons_of_mem _ hm)) h.2
      exact ⟨by rw [h.1, this.1], this.2⟩

theorem k_data (id : String) (c : Context) :
    (k id c).data = id.data ++ '|' :: (c.hourBucket.data ++ '|' :: (c.widthBucket.data ++
      '|' :: (if c.prefersDark then "D" else "L").data)) := by
  simp [k, String.data_append]

/-- The key determines its parts whenever no part contains the delimiter. -/
theorem k_injective (id id' : String) (c c' : Context)
    (h1 : '|' ∉ id.data) (h1' : '|' ∉ id'.data)
    (h2 : '|' ∉ c.hourBucket.data) (h2' : '|' ∉ c'.hourBucket.data)
    (h3 : '|' ∉ c.widthBucket.data) (h3' : '|' ∉ c'.widthBucket.data)
    (h : k id c = k id' c') : id = id' ∧ c = c' := by
  have hd : (k id c).data = (k id' c').data := by rw [h]
  rw [k_data, k_data] at hd
  obtain ⟨e1, hd⟩ := split_at_bar _ _ _ _ h1 h1' hd
  obtain ⟨e2, hd⟩ := split_at_bar _ _ _ _ h2 h2' hd
  obtain ⟨e3, hd⟩ := split_at_bar _ _ _ _ h3 h3' hd
  refine ⟨String.ext e1, ?_⟩
  cases c with
  | mk hb wb pd =>
    cases c' with
    | mk hb' wb' pd' =>
      simp only at e2 e3 hd
      have e4 : pd = pd' := by
        cases pd <;> cases pd' <;> first | rfl | (exfalso; simp at hd)
      rw [String.ext e2, String.ext e3, e4]

theorem catalog_id_no_bar (v : Variant) (hv : v ∈ VARIANTS) : '|' ∉ v.id.data := by
  simp only [VARIANTS, List.mem_cons, List.mem_singleton, List.not_mem_nil, or_false] at hv
  rcases hv with rfl | rfl | rfl | rfl <;> decide

theorem context_no_bar (h w : ℤ) (d : Bool) :
    '|' ∉ (context h w d).hourBucket.data ∧ '|' ∉ (context h w d).widthBucket.data := by
  constructor
  · simp only [context]; split_ifs <;> decide
  · simp only [context]; split_ifs <;> decide

/-- C10. The policy key is a unique address and update touches only it: for catalog
variants and contexts produced by `context()`, two keys are equal iff the variant ids
and the contexts are equal; `updatePolicy` keeps `epsilon`, keeps the `q` and `n` values
of every other pair, and raises the count of its own key by exactly one. -/
theorem key_unique_update_frame (S : Stringify) (ls : Storage) (p : Policy)
    (v v' : Variant) (h w h' w' : ℤ) (d d' : Bool) (r : ℚ)
    (hv : v ∈ VARIANTS) (hv' : v' ∈ VARIANTS) :
    (k v.id (context h w d) = k v'.id (context h' w' d') ↔
      v.id = v'.id ∧ context h w d = context h' w' d') ∧
    (updatePolicy S ls p v (context h w d) r).1.epsilon = p.epsilon ∧
    (¬ (v'.id = v.id ∧ context h' w' d' = context h w d) →
      (updatePolicy S ls p v (context h w d) r).1.q (k v'.id (context h' w' d')) =
        p.q (k v'.id (context h' w' d')) ∧
      (updatePolicy S ls p v (context h w d) r).1.n (k v'.id (context h' w' d')) =
        p.n (k v'.id (context h' w' d'))) ∧
    ((updatePolicy S ls p v (context h w d) r).1.n (k v.id (context h w d))).getD 0 =
      (p.n (k v.id (context h w d))).getD 0 + 1 := by
  have hinj : k v.id (context h w d) = k v'.id (context h' w' d') →
      v.id = v'.id ∧ context h w d = context h' w' d' :=
    k_injective _ _ _ _ (catalog_id_no_bar v hv) (catalog_id_no_bar v' hv')
      (context_no_bar h w d).1 (context_no_bar h' w' d').1
      (context_no_bar h w d).2 (context_no_bar h' w' d').2
  refine ⟨⟨hinj, fun e => by rw [e.1, e.2]⟩, rfl, ?_, ?_⟩
  · intro hne
    have hk : k v'.id (context h' w' d') ≠ k v.id (context h w d) := by
      intro e
      exact hne ⟨(hinj e.symm).1.symm, (hinj e.symm).2.symm⟩
    exact ⟨assign_other _ _ _ _ hk, assign_other _ _ _ _ hk⟩
  · rw [updatePolicy_n]; rfl

/-- C10, at concrete inputs: variants A and B in the day/medium/light context have
different keys; an update of A with reward 1 leaves the entry of B absent and raises
the count of A from 0 to 1. -/
theorem key_unique_update_frame_witness :
    k "A" (context 12 800 false) ≠ k "B" (context 12 800 false) ∧
    (updatePolicy ⟨fun _ => "", fun _ => ""⟩ (fun _ => none) Policy.initial
      ⟨"A", ["dense", "small-cards"], "dark", "Dense + Small Cards + Dark"⟩
      (context 12 800 false) 1).1.n (k "B" (context 12 800 false)) = none ∧
    ((updatePolicy ⟨fun _ => "", fun _ => ""⟩ (fun _ => none) Policy.initial
      ⟨"A", ["dense", "small-cards"], "dark", "Dense + Small Cards + Dark"⟩
      (context 12 800 false) 1).1.n (k "A" (context 12 800 false))).getD 0 = 1 := by
  have h := key_unique_update_frame ⟨fun _ => "", fun _ => ""⟩ (fun _ => none)
    Policy.initial ⟨"A", ["dense", "small-cards"], "dark", "Dense + Small Cards + Dark"⟩
    ⟨"B", ["spacious", "small-cards"], "light", "Spacious + Small Cards + Light"⟩
    12 800 12 800 false false 1 (by simp [VARIANTS]) (by simp [VARIANTS])
  have hne : ¬ ("B" = "A" ∧ context 12 800 false = context 12 800 false) := by decide
  refine ⟨?_, ?_, ?_⟩
  · intro e
    exact absurd (h.1.mp e).1 (by decide)
  · exact (h.2.2.1 hne).2
  · exact h.2.2.2

/-! ## Selection -/

/-- The loop invariant of the exploitation scan: `best` sits in the scanned part of the
catalog after strictly smaller values and before values that are not larger. -/
theorem scan_first_max (p : Policy) (ctx : Context) (vs : List Variant) :
    ∀ (l1 : List Variant) (best : Variant) (l2 : List Variant),
      (∀ u ∈ l1, qValue p ctx u < qValue p ctx best) →
      (∀ w ∈ l2, qValue p ctx w ≤ qValue p ctx best) →
      ∃ l1' l2',
        l1 ++ best :: l2 ++ vs
          = l1' ++ (vs.foldl (scanStep p ctx) (best, some (qValue p ctx best))).1 :: l2' ∧
        (∀ u ∈ l1', qValue p ctx u <
          qValue p ctx (vs.foldl (scanStep p ctx) (best, some (qValue p ctx best))).1) ∧
        (∀ w ∈ l2', qValue p ctx w ≤
          qValue p ctx (vs.foldl (scanStep p ctx) (best, some (qValue p ctx best))).1) := by
  induction vs with
  | nil =>
    intro l1 best l2 h1 h2
    exact ⟨l1, l2, by simp, h1, h2⟩
  | cons x xs ih =>
    intro l1 best l2 h1 h2
    by_cases hx : qValue p ctx best < qValue p ctx x
    · have hstep : scanStep p ctx (best, some (qValue p ctx best)) x
          = (x, some (qValue p ctx x)) := by
        simp [scanStep, gtBest, hx]
      obtain ⟨l1', l2', e, g1, g2⟩ := ih (l1 ++ best :: l2) x [] (by
        intro u hu
        rcases List.mem_append.mp hu with hu | hu
        · exact lt_trans (h1 u hu) hx
        · rcases List.mem_cons.mp hu with rfl | hu
          · exact hx
          · exact lt_of_le_of_lt (h2 u hu) hx) (by simp)
      refine ⟨l1', l2', ?_, ?_, ?_⟩
      · rw [List.foldl_cons, hstep, ← e]; simp
      · rw [List.foldl_cons, hstep]; exact g1
      · rw [List.foldl_cons, hstep]; exact g2
    · have hstep : scanStep p ctx (best, some (qValue p ctx best)) x
          = (best, some (qValue p ctx best)) := by
        simp [scanStep, gtBest, hx]
      obtain ⟨l1', l2', e, g1, g2⟩ := ih l1 best (l2 ++ [x]) h1 (by
        intro w hw
        rcases List.mem_append.mp hw with hw | hw
        · exact h2 w hw
        · rw [List.mem_singleton.mp hw]; exact not_lt.mp hx)
      refine ⟨l1', l2', ?_, ?_, ?_⟩
      · rw [List.foldl_cons, hstep, ← e]; simp
      · rw [List.foldl_cons, hstep]; exact g1
      · rw [List.foldl_cons, hstep]; exact g2

/-- The exploitation branch returns the first maximal variant of the catalog. -/
theorem exploit_first_max (p : Policy) (ctx : Context) :
    ∃ v l1 l2, exploit p ctx = some v ∧ VARIANTS = l1 ++ v :: l2 ∧
      (∀ u ∈ l1, qValue p ctx u < qValue p ctx v) ∧
      (∀ w ∈ VARIANTS, qValue p ctx w ≤ qValue p ctx v) := by
  obtain ⟨l1, l2, e, g1, g2⟩ := scan_first_max p ctx (VARIANTS.tail) []
    ⟨"A", ["dense", "small-cards"], "dark", "Dense + Small Cards + Dark"⟩ []
    (by simp) (by simp)
  refine ⟨_, l1, l2, ?_, e, g1, ?_⟩
  · simp [exploit, VARIANTS, scanStep, gtBest]
  · intro w hw
    have e' : VARIANTS = l1 ++ _ :: l2 := e
    rw [e'] at hw
    rcases List.mem_append.mp hw with hw | hw
    · exact le_of_lt (g1 w hw)
    · rcases List.mem_cons.mp hw with rfl | hw
      · exact le_refl _
      · exact g2 w hw

/-- C2. Exploitation rule of `selectVariant`: whenever the first draw is not below
`policy.epsilon`, the result is the catalog variant `v` whose value `q(v)` (zero when its
key is absent) is at least that of every catalog variant and strictly greater than that
of every variant earlier in the catalog. In particular, with no observed key it is
variant A, and with one variant at `q = -5` and the others unseen it is the first unseen
variant in catalog order. -/
theorem selectVariant_exploitation (p : Policy) (ctx : Context) (r1 r2 : ℚ)
    (h : ¬ r1 < p.epsilon) :
    (∃ v l1 l2, selectVariant r1 r2 p ctx = some v ∧ VARIANTS = l1 ++ v :: l2 ∧
      (∀ u ∈ l1, qValue p ctx u < qValue p ctx v) ∧
      (∀ w ∈ VARIANTS, qValue p ctx w ≤ qValue p ctx v)) ∧
    ((∀ w ∈ VARIANTS, p.q (k w.id ctx) = none) →
      selectVariant r1 r2 p ctx = VARIANTS.head?) ∧
    (∀ x ∈ VARIANTS, p.q (k x.id ctx) = some (-5) →
      (∀ w ∈ VARIANTS, w ≠ x → p.q (k w.id ctx) = none) →
      selectVariant r1 r2 p ctx = VARIANTS.find? (fun w => decide (w ≠ x))) := by
  have hsel : selectVariant r1 r2 p ctx = exploit p ctx := by simp [selectVariant, h]
  refine ⟨?_, ?_, ?_⟩
  · rw [hsel]; exact exploit_first_max p ctx
  · intro hall
    rw [hsel]
    simp only [VARIANTS, List.mem_cons, List.mem_singleton, List.not_mem_nil, or_false,
      forall_eq_or_imp, forall_eq] at hall
    obtain ⟨ha, hb, hc, hd⟩ := hall
    simp [exploit, VARIANTS, scanStep, gtBest, qValue, ha, hb, hc, hd]
  · intro x hx hneg hrest
    rw [hsel]
    simp only [VARIANTS, List.mem_cons, List.mem_singleton, List.not_mem_nil, or_false] at hx
    simp only [VARIANTS, List.mem_cons, List.mem_singleton, List.not_mem_nil, or_false,
      forall_eq_or_imp, forall_eq] at hrest
    obtain ⟨ha, hb, hc, hd⟩ := hrest
    rcases hx with rfl | rfl | rfl | rfl
    · have hb := hb (by decide)
      have hc := hc (by decide)
      have hd := hd (by decide)
      norm_num [exploit, VARIANTS, scanStep, gtBest, qValue, hneg, hb, hc, hd]
      decide
    · have ha := ha (by decide)
      have hc := hc (by decide)
      have hd := hd (by decide)
      norm_num [exploit, VARIANTS, scanStep, gtBest, qValue, hneg, ha, hc, hd]
      decide
    · have ha := ha (by decide)
      have hb := hb (by decide)
      have hd := hd (by decide)
      norm_num [exploit, VARIANTS, scanStep, gtBest, qValue, hneg, ha, hb, hd]
      decide
    · have ha := ha (by decide)
      have hb := hb (by decide)
      have hc := hc (by decide)
      norm_num [exploit, VARIANTS, scanStep, gtBest, qValue, hneg, ha, hb, hc]
      decide

/-- C2, scenario: in the day/medium/light context with only B observed, at `q = -5`, a
draw of 1/2 against `epsilon = 0.15` exploits and returns variant A, the first unseen
variant; with A at `q = -5` instead the result is B. -/
theorem selectVariant_exploitation_witness :
    (selectVariant (1 / 2) 0
        { q := fun key => if key = "B|day|medium|L" then some (-5) else none,
          n := fun key => if key = "B|day|medium|L" then some 1 else none,
          epsilon := 15 / 100 } (context 12 800 false)).map Variant.id = some "A" ∧
    (selectVariant (1 / 2) 0
        { q := fun key => if key = "A|day|medium|L" then some (-5) else none,
          n := fun key => if key = "A|day|medium|L" then some 1 else none,
          epsilon := 15 / 100 } (context 12 800 false)).map Variant.id = some "B" := by
  constructor
  · have h := (selectVariant_exploitation
      { q := fun key => if key = "B|day|medium|L" then some (-5) else none,
        n := fun key => if key = "B|day|medium|L" then some 1 else none,
        epsilon := 15 / 100 } (context 12 800 false) (1 / 2) 0 (by norm_num)).2.2
      ⟨"B", ["spacious", "small-cards"], "light", "Spacious + Small Cards + Light"⟩
      (by simp [VARIANTS]) (by simp [k, context]) (by
        intro w hw hne
        simp only [VARIANTS, List.mem_cons, List.mem_singleton, List.not_mem_nil,
          or_false] at hw
        rcases hw with rfl | rfl | rfl | rfl
        · simp [k, context]
        · exact absurd rfl hne
        · simp [k, context]
        · simp [k, context])
    rw [h]
    decide
  · have h := (selectVariant_exploitation
      { q := fun key => if key = "A|day|medium|L" then some (-5) else none,
        n := fun key => if key = "A|day|medium|L" then some 1 else none,
        epsilon := 15 / 100 } (context 12 800 false) (1 / 2) 0 (by norm_num)).2.2
      ⟨"A", ["dense", "small-cards"], "dark", "Dense + Small Cards + Dark"⟩
      (by simp [VARIANTS]) (by simp [k, context]) (by
        intro w hw hne
        simp only [VARIANTS, List.mem_cons, List.mem_singleton, List.not_mem_nil,
          or_false] at hw
        rcases hw with rfl | rfl | rfl | rfl
        · exact absurd rfl hne
        · simp [k, context]
        · simp [k, context]
        · simp [k, context])
    rw [h]
    decide

/-- C3. Epsilon boundary of `selectVariant`, for draws in `[0,1)`: with `epsilon = 0`
the result is the exploitation scan, whatever the first draw and whatever value a second
draw would have; with `epsilon = 1` the exploration branch is taken for every first draw
and the result is `VARIANTS[floor(r2 * 4)]` for the second draw `r2`, which is a member
of the catalog. -/
theorem selectVariant_epsilon_boundary (p : Policy) (ctx : Context) (r1 : ℚ)
    (h1 : 0 ≤ r1 ∧ r1 < 1) :
    (p.epsilon = 0 → ∀ r2 : ℚ, selectVariant r1 r2 p ctx = exploit p ctx) ∧
    (p.epsilon = 1 → ∀ r2 : ℚ, 0 ≤ r2 → r2 < 1 →
      selectVariant r1 r2 p ctx = index VARIANTS ⌊r2 * 4⌋ ∧
      ∃ v ∈ VARIANTS, selectVariant r1 r2 p ctx = some v) := by
  constructor
  · intro he r2
    have : ¬ r1 < p.epsilon := by rw [he]; exact not_lt.mpr h1.1
    simp [selectVariant, this]
  · intro he r2 hr0 hr1
    have hlt : r1 < p.epsilon := by rw [he]; exact h1.2
    have hsel : selectVariant r1 r2 p ctx = index VARIANTS ⌊r2 * 4⌋ := by
      simp [selectVariant, hlt, VARIANTS]
    refine ⟨hsel, ?_⟩
    rw [hsel]
    have hlo : (0 : ℤ) ≤ ⌊r2 * 4⌋ := Int.floor_nonneg.mpr (by linarith)
    have hhi : ⌊r2 * 4⌋ < (4 : ℤ) := Int.floor_lt.mpr (by push_cast; linarith)
    generalize ⌊r2 * 4⌋ = i at hlo hhi
    interval_cases i <;> simp [index, VARIANTS]

/-- C3, at concrete draws: with `epsilon = 1`, first draw 0.99 and second draw 0.6 the
result is `VARIANTS[2]`, variant C; with `epsilon = 0` the same draws give the
exploitation result, variant A for the initial statistics. -/
theorem selectVariant_epsilon_boundary_witness :
    (selectVariant (99 / 100) (6 / 10) { Policy.initial with epsilon := 1 }
      (context 12 800 false)).map Variant.id = some "C" ∧
    (selectVariant (99 / 100) (6 / 10) { Policy.initial with epsilon := 0 }
      (context 12 800 false)).map Variant.id = some "A" := by
  have h := selectVariant_epsilon_boundary { Policy.initial with epsilon := 1 }
    (context 12 800 false) (99 / 100) (by norm_num)
  have h0 := selectVariant_epsilon_boundary { Policy.initial with epsilon := 0 }
    (context 12 800 false) (99 / 100) (by norm_num)
  constructor
  · rw [(h.2 rfl (6 / 10) (by norm_num) (by norm_num)).1]
    have : ⌊(6 / 10 : ℚ) * 4⌋ = 2 := by
      rw [Int.floor_eq_iff]; norm_num
    rw [this]
    simp [index, VARIANTS]
  · rw [h0.1 rfl]
    simp [exploit, VARIANTS, scanStep, gtBest, qValue, Policy.initial]

/-! ## Rewards -/

theorem dwellBonus_eq (now start : ℤ) :
    dwellBonus now start = max 0 (min 1 (((now - start : ℤ) : ℚ) / 1000 / 30)) := rfl

theorem cardClick_policy (S : Stringify) (now : ℤ) (act : String) (id : ℚ) (st : App)
    (v : Variant) (c : Context) (hv : st.currentVariant = some v) (hc : st.currentCtx = some c)
    (hitem : act = "open" → (findItem id).isSome = true) :
    (cardClick S now act id st).policy =
      (updatePolicy S st.storage st.policy v c (clickReward now act st)).1 := by
  have hguard : ¬ (act = "open" ∧ (findItem id).isNone = true) := by
    rintro ⟨ha, hn⟩
    have := hitem ha
    rw [Option.isNone_iff_eq_none] at hn
    rw [hn] at this
    exact absurd this (by simp)
  simp only [cardClick, if_neg hguard, hv, hc, updatePolicy]

/-- C4. Reward composition: with `s = (now - sessionStart) / 1000` the elapsed seconds,
the reward the click handler folds into the policy (for `open`, on an item of `SAMPLE`)
is `baseReward(action) + max(0, min(1, s / 30))`; `baseReward` is 1 for `open`, 2 for `fav`, -1 for `dismiss` and
0 for any other label; the dwell term lies in `[0,1]`, is non-decreasing in the elapsed
time and equals 1 from 30 seconds on; `dismiss` at 0 seconds gives exactly -1 and `open`
at 30 seconds or more gives exactly 2. -/
theorem reward_composition (S : Stringify) (now : ℤ) (act : String) (id : ℚ) (st : App) :
    clickReward now act st =
      baseReward act + max 0 (min 1 (((now - st.sessionStart : ℤ) : ℚ) / 1000 / 30)) ∧
    (∀ v c, st.currentVariant = some v → st.currentCtx = some c →
      (act = "open" → (findItem id).isSome = true) →
      (cardClick S now act id st).policy =
        (updatePolicy S st.storage st.policy v c
          (baseReward act + max 0 (min 1 (((now - st.sessionStart : ℤ) : ℚ) / 1000 / 30)))).1) ∧
    (baseReward "open" = 1 ∧ baseReward "fav" = 2 ∧ baseReward "dismiss" = -1 ∧
      (act ≠ "open" → act ≠ "fav" → act ≠ "dismiss" → baseReward act = 0)) ∧
    (0 ≤ dwellBonus now st.sessionStart ∧ dwellBonus now st.sessionStart ≤ 1) ∧
    (∀ later : ℤ, now ≤ later →
      dwellBonus now st.sessionStart ≤ dwellBonus later st.sessionStart) ∧
    (30 ≤ ((now - st.sessionStart : ℤ) : ℚ) / 1000 → dwellBonus now st.sessionStart = 1) ∧
    (now = st.sessionStart → clickReward now "dismiss" st = -1) ∧
    (30 ≤ ((now - st.sessionStart : ℤ) : ℚ) / 1000 → clickReward now "open" st = 2) := by
  have hcap : 30 ≤ ((now - st.sessionStart : ℤ) : ℚ) / 1000 →
      dwellBonus now st.sessionStart = 1 := by
    intro h
    rw [dwellBonus_eq]
    have h1 : (1 : ℚ) ≤ ((now - st.sessionStart : ℤ) : ℚ) / 1000 / 30 := by
      rw [le_div_iff₀ (by norm_num)]; linarith
    rw [min_eq_left h1]
    norm_num
  refine ⟨rfl, ?_, ⟨by decide, by decide, by decide, ?_⟩, ⟨?_, ?_⟩, ?_, hcap, ?_, ?_⟩
  · intro v c hv hc hitem
    exact cardClick_policy S now act id st v c hv hc hitem
  · intro h1 h2 h3
    simp [baseReward, h1, h2, h3]
  · rw [dwellBonus_eq]; exact le_max_left _ _
  · rw [dwellBonus_eq]; exact max_le (by norm_num) (min_le_left _ _)
  · intro later hle
    rw [dwellBonus_eq, dwellBonus_eq]
    have hcast : ((now - st.sessionStart : ℤ) : ℚ) ≤ ((later - st.sessionStart : ℤ) : ℚ) := by
      exact_mod_cast sub_le_sub_right hle _
    have : ((now - st.sessionStart : ℤ) : ℚ) / 1000 / 30 ≤
        ((later - st.sessionStart : ℤ) : ℚ) / 1000 / 30 := by
      apply div_le_div_of_nonneg_right _ (by norm_num)
      exact div_le_div_of_nonneg_right hcast (by norm_num)
    exact max_le_max (le_refl _) (min_le_min (le_refl _) this)
  · intro h
    simp [clickReward, baseReward, dwellBonus_eq, h]
  · intro h
    rw [clickReward, hcap h]
    norm_num [baseReward]

/-! ## Persistence -/

theorem JSON_parse_null : JSON_parse none = some Json.null := rfl

/-- C5 (as stated) fails: a stored blob `{}` parses, is not a policy record, and
`Policy.load` returns it as parsed instead of the default policy. -/
theorem Policy_load_malformed_counterexample :
    JSON_parse (some "\x7b\x7d") = some (Json.obj []) ∧
    specPolicyRecord (Json.obj []) = false ∧
    Policy.load (fun key => if key = "banditPolicy_v1" then some "\x7b\x7d" else none)
      = Json.obj [] ∧
    Policy.load (fun key => if key = "banditPolicy_v1" then some "\x7b\x7d" else none)
      ≠ defaultPolicy := by
  have hload : Policy.load (fun key => if key = "banditPolicy_v1" then some "\x7b\x7d" else none)
      = Json.obj [] := rfl
  refine ⟨rfl, rfl, hload, ?_⟩
  rw [hload]
  intro h
  simp [defaultPolicy] at h

/-- C5 (amended). `Policy.load` returns the default policy whenever the blob is absent,
fails to parse, or parses to `null`, and never raises; a blob that parses to any other
value is returned as parsed, with no check of its shape. -/
theorem Policy_load_fallback (ls : Storage)
    (h : getItem ls LS_POLICY_KEY = none ∨ JSON_parse (getItem ls LS_POLICY_KEY) = none ∨
      JSON_parse (getItem ls LS_POLICY_KEY) = some Json.null) :
    Policy.load ls = defaultPolicy ∧
    (∀ (ls' : Storage) (v : Json), JSON_parse (getItem ls' LS_POLICY_KEY) = some v →
      v ≠ Json.null → Policy.load ls' = v) := by
  constructor
  · rcases h with h | h | h
    · simp [Policy.load, h, JSON_parse_null, nullish]
    · simp [Policy.load, h]
    · simp [Policy.load, h, nullish]
  · intro ls' v hv hne
    simp only [Policy.load, hv]
    cases v <;> simp_all [nullish]

/-- C5 (amended), at a concrete input: the truncated blob `{"q":` does not parse and
`Policy.load` returns the default policy. -/
theorem Policy_load_fallback_witness :
    JSON_parse (some "\x7b\"q\":") = none ∧
    Policy.load (fun key => if key = "banditPolicy_v1" then some "\x7b\"q\":" else none)
      = defaultPolicy :=
  ⟨rfl, (Policy_load_fallback
    (fun key => if key = "banditPolicy_v1" then some "\x7b\"q\":" else none)
    (Or.inr (Or.inl rfl))).1⟩

theorem reset_getItem_policy (ls : Storage) :
    getItem (Policy.reset ls) LS_POLICY_KEY = none := by
  simp [Policy.reset, removeItem, getItem]

theorem load_reset (ls : Storage) : Policy.load (Policy.reset ls) = defaultPolicy := by
  simp [Policy.load, reset_getItem_policy, JSON_parse_null, nullish]

theorem ofJson_default : Policy.ofJson defaultPolicy = Policy.initial := by
  simp [Policy.ofJson, defaultPolicy, Policy.initial, Json.prop, List.lookup]

/-- C9. Reset then load yields the default: for every stored state, `Policy.load` after
`Policy.reset` returns the policy with `epsilon = 0.15` and empty `q` and `n`, the
reset handler leaves the page holding that policy, and `reset` leaves the favorites
record in storage unchanged. -/
theorem reset_then_load_default (ls : Storage) (st : App) :
    Policy.load (Policy.reset ls) = defaultPolicy ∧
    (Policy.ofJson (Policy.load (Policy.reset ls))).epsilon = 15 / 100 ∧
    (∀ key, (Policy.ofJson (Policy.load (Policy.reset ls))).q key = none ∧
      (Policy.ofJson (Policy.load (Policy.reset ls))).n key = none) ∧
    getItem (Policy.reset ls) LS_FAVS_KEY = getItem ls LS_FAVS_KEY ∧
    Favorites.load (Policy.reset ls) = Favorites.load ls ∧
    (resetClick st).policy = Policy.initial ∧
    getItem (resetClick st).storage LS_FAVS_KEY = getItem st.storage LS_FAVS_KEY := by
  have hfav : ∀ s : Storage, getItem (Policy.reset s) LS_FAVS_KEY = getItem s LS_FAVS_KEY := by
    intro s
    have : LS_FAVS_KEY ≠ LS_POLICY_KEY := by decide
    simp [Policy.reset, removeItem, getItem, this]
  refine ⟨load_reset ls, ?_, ?_, hfav ls, ?_, ?_, ?_⟩
  · rw [load_reset, ofJson_default]; rfl
  · intro key
    rw [load_reset, ofJson_default]
    exact ⟨rfl, rfl⟩
  · simp [Favorites.load, hfav ls]
  · simp [resetClick, load_reset, ofJson_default]
  · simp [resetClick, hfav]

/-! ## The dwell clock and the favorite action -/

theorem step_sessionStart (S : Stringify) (st : App) (e : Event) :
    (step S st e).sessionStart = st.sessionStart := by
  cases e with
  | main now hour width dark r1 r2 => rfl
  | resize now hour width dark r1 r2 => rfl
  | click now act id =>
    simp only [step, cardClick]
    split
    · rfl
    · split <;> rfl
  | reset now => rfl

theorem foldl_step_sessionStart (S : Stringify) (events : List Event) :
    ∀ st : App, (events.foldl (step S) st).sessionStart = st.sessionStart := by
  induction events with
  | nil => intro st; rfl
  | cons e es ih =>
    intro st
    rw [List.foldl_cons, ih, step_sessionStart]

/-- C6 (as stated) fails: the script is evaluated at time 0, `main` runs at 0, a resize
re-selects at 60000 ms and an `open` click follows at the same instant. The
specification's dwell clock starts at 60000, for a bonus of 0 and a reward of 1; the
handler computes the bonus from time 0 and folds in a reward of 2. -/
theorem dwell_clock_counterexample :
    specDwellClock [Event.main 0 12 800 false (1 / 2) 0,
      Event.resize 60000 12 800 false (1 / 2) 0] = some 60000 ∧
    baseReward "open" + max 0 (min 1 (((60000 - 60000 : ℤ) : ℚ) / 1000 / 30)) = 1 ∧
    clickReward 60000 "open"
      (run ⟨fun _ => "", fun _ => ""⟩ 0 (fun _ => none)
        [Event.main 0 12 800 false (1 / 2) 0, Event.resize 60000 12 800 false (1 / 2) 0])
      = 2 ∧
    (run ⟨fun _ => "", fun _ => ""⟩ 0 (fun _ => none)
        [Event.main 0 12 800 false (1 / 2) 0, Event.resize 60000 12 800 false (1 / 2) 0,
          Event.click 60000 "open" 1]).policy.q "A|day|medium|L" = some 2 := by
  refine ⟨rfl, ?_, ?_, ?_⟩
  · norm_num [baseReward]
  · rw [clickReward, run, foldl_step_sessionStart]
    norm_num [baseReward, dwellBonus, boot]
  · have hload : Policy.ofJson (Policy.load (fun _ => none)) = Policy.initial := by
      rw [← ofJson_default]; rfl
    have hk : k "A" (context 12 800 false) = "A|day|medium|L" := by decide
    have hsel : selectVariant (1 / 2) 0 Policy.initial (context 12 800 false)
        = some ⟨"A", ["dense", "small-cards"], "dark", "Dense + Small Cards + Dark"⟩ := by
      norm_num [selectVariant, Policy.initial, exploit, VARIANTS, scanStep, gtBest, qValue]
    have hitem : (findItem 1).isSome = true := by simp [findItem, SAMPLE]
    simp only [run, List.foldl_cons, List.foldl_nil, step, boot, reselect, hload, hsel]
    rw [cardClick_policy _ _ _ _ _ ⟨"A", ["dense", "small-cards"], "dark",
      "Dense + Small Cards + Dark"⟩ (context 12 800 false) rfl rfl (fun _ => hitem)]
    rw [updatePolicy, hk]
    norm_num [assign, Policy.initial, clickReward, baseReward, dwellBonus]

/-- C6 (amended). The dwell clock is the script's start: in every run, whatever
selections (`main`, resize) and other events have happened, `sessionStart` is still the
time `start` at which the script was evaluated, and a click handled at time `now` has
the dwell bonus `max(0, min(1, (now - start) / 1000 / 30))` added to its reward. -/
theorem dwell_clock_is_script_start (S : Stringify) (start : ℤ) (ls : Storage)
    (events : List Event) (now : ℤ) (act : String) :
    (run S start ls events).sessionStart = start ∧
    dwellBonus now (run S start ls events).sessionStart =
      max 0 (min 1 (((now - start : ℤ) : ℚ) / 1000 / 30)) ∧
    clickReward now act (run S start ls events) =
      baseReward act + max 0 (min 1 (((now - start : ℤ) : ℚ) / 1000 / 30)) := by
  have h : (run S start ls events).sessionStart = start := by
    rw [run, foldl_step_sessionStart]; rfl
  refine ⟨h, ?_, ?_⟩
  · rw [h]; rfl
  · rw [clickReward, h]; rfl

theorem cardClick_favorites (S : Stringify) (now : ℤ) (act : String) (id : ℚ) (st : App) :
    (cardClick S now act id st).favorites = clickFavorites act id st.favorites := by
  simp only [cardClick]
  split
  · rename_i h
    have hne : act ≠ "fav" := by rw [h.1]; decide
    simp [clickFavorites, hne]
  · split <;> rfl

theorem setHas_setAdd_num (s : List Json) (x : ℚ) :
    setHas (setAdd s (.num x)) (.num x) = true := by
  by_cases h : setHas s (.num x) = true
  · simp [setAdd, h]
  · have h' : setHas s (.num x) = false := by simpa using h
    simp only [setAdd, h', Bool.false_eq_true, if_false]
    simp [setHas, sameValueZero]

theorem setHas_setDelete_num (s : List Json) (x : ℚ) :
    setHas (setDelete s (.num x)) (.num x) = false := by
  simp [setHas, setDelete]

/-- C7 (as stated) fails: with item 1 stored as a favorite, the script evaluated and
`main` run at time 0, a favorite click on item 1 at time 0 removes it (toggle-off) and
still folds in the reward 2, not the 0 of an action without base reward. -/
theorem favorite_toggle_off_counterexample :
    (run ⟨fun _ => "", fun _ => ""⟩ 0
        (fun key => if key = "favorites_v1" then some "[1]" else none)
        [Event.main 0 12 800 false (1 / 2) 0]).favorites = [Json.num 1] ∧
    (run ⟨fun _ => "", fun _ => ""⟩ 0
        (fun key => if key = "favorites_v1" then some "[1]" else none)
        [Event.main 0 12 800 false (1 / 2) 0, Event.click 0 "fav" 1]).favorites = [] ∧
    (run ⟨fun _ => "", fun _ => ""⟩ 0
        (fun key => if key = "favorites_v1" then some "[1]" else none)
        [Event.main 0 12 800 false (1 / 2) 0, Event.click 0 "fav" 1]).policy.q
          "A|day|medium|L" = some 2 ∧
    clickReward 0 "fav" (run ⟨fun _ => "", fun _ => ""⟩ 0
        (fun key => if key = "favorites_v1" then some "[1]" else none)
        [Event.main 0 12 800 false (1 / 2) 0]) = 2 := by
  have hload : Policy.ofJson
      (Policy.load (fun key => if key = "favorites_v1" then some "[1]" else none))
      = Policy.initial := by
    rw [← ofJson_default]; rfl
  have hfav : Favorites.load (fun key => if key = "favorites_v1" then some "[1]" else none)
      = [Json.num 1] := by
    have hp : JSON_parse (some "[1]") = some (Json.arr [Json.num 1]) := by
      have : JSON_parse (some "[1]") = some (Json.arr [Json.num ((((1 : ℕ) : ℚ) + 0) * 1)]) := rfl
      rw [this]; norm_num
    have hg : getItem (fun key => if key = "favorites_v1" then some "[1]" else none)
        LS_FAVS_KEY = some "[1]" := rfl
    rw [Favorites.load, hg, hp]
    simp [nullish, newSet, setAdd, setHas]
  have hb : baseReward "fav" = 2 := by decide
  have hk : k "A" (context 12 800 false) = "A|day|medium|L" := by decide
  have hsel : selectVariant (1 / 2) 0 Policy.initial (context 12 800 false)
      = some ⟨"A", ["dense", "small-cards"], "dark", "Dense + Small Cards + Dark"⟩ := by
    norm_num [selectVariant, Policy.initial, exploit, VARIANTS, scanStep, gtBest, qValue]
  refine ⟨?_, ?_, ?_, ?_⟩
  · simp only [run, List.foldl_cons, List.foldl_nil, step, boot, reselect, hfav]
  · simp only [run, List.foldl_cons, List.foldl_nil, step]
    rw [cardClick_favorites]
    simp [boot, reselect, hfav, clickFavorites, setHas, setDelete, sameValueZero]
  · simp only [run, List.foldl_cons, List.foldl_nil, step, boot, reselect, hload, hsel]
    rw [cardClick_policy _ _ _ _ _ ⟨"A", ["dense", "small-cards"], "dark",
      "Dense + Small Cards + Dark"⟩ (context 12 800 false) rfl rfl
      (fun h => absurd h (by decide))]
    rw [updatePolicy, hk]
    norm_num [assign, Policy.initial, clickReward, hb, dwellBonus]
  · rw [clickReward, run, foldl_step_sessionStart, hb]
    norm_num [dwellBonus, boot]

/-- C7 (amended). The base reward of the favorite action does not depend on the toggle
direction: for every favorites set and item id, a favorite click folds
`2 + dwellBonus` into the policy both when it adds the item (it was not a favorite and is
one afterwards) and when it removes it (it was a favorite and is not one afterwards). -/
theorem favorite_reward_both_directions (S : Stringify) (now : ℤ) (id : ℚ) (st : App)
    (v : Variant) (c : Context) (hv : st.currentVariant = some v)
    (hc : st.currentCtx = some c) :
    baseReward "fav" = 2 ∧
    (cardClick S now "fav" id st).policy =
      (updatePolicy S st.storage st.policy v c (2 + dwellBonus now st.sessionStart)).1 ∧
    (setHas st.favorites (.num id) = false →
      (cardClick S now "fav" id st).favorites = setAdd st.favorites (.num id) ∧
      setHas (cardClick S now "fav" id st).favorites (.num id) = true) ∧
    (setHas st.favorites (.num id) = true →
      (cardClick S now "fav" id st).favorites = setDelete st.favorites (.num id) ∧
      setHas (cardClick S now "fav" id st).favorites (.num id) = false) := by
  have hb : baseReward "fav" = 2 := by decide
  refine ⟨hb, ?_, ?_, ?_⟩
  · rw [cardClick_policy S now "fav" id st v c hv hc (fun h => absurd h (by decide)),
      clickReward, hb]
  · intro h
    have e : (cardClick S now "fav" id st).favorites = setAdd st.favorites (.num id) := by
      rw [cardClick_favorites]; simp [clickFavorites, h]
    exact ⟨e, by rw [e]; exact setHas_setAdd_num _ _⟩
  · intro h
    have e : (cardClick S now "fav" id st).favorites = setDelete st.favorites (.num id) := by
      rw [cardClick_favorites]; simp [clickFavorites, h]
    exact ⟨e, by rw [e]; exact setHas_setDelete_num _ _⟩

/-- C7 (amended), at a concrete state: item 1 is a favorite, variant A is current in the
day/medium/light context, and 15 seconds have passed; the favorite click removes the
item and folds in `2 + 1/2`. -/
theorem favorite_reward_both_directions_witness :
    (cardClick ⟨fun _ => "", fun _ => ""⟩ 15000 "fav" 1
      { policy := Policy.initial, favorites := [Json.num 1], sessionStart := 0,
        currentVariant := some ⟨"A", ["dense", "small-cards"], "dark",
          "Dense + Small Cards + Dark"⟩,
        currentCtx := some (context 12 800 false),
        storage := fun _ => none }).favorites = [] ∧
    (cardClick ⟨fun _ => "", fun _ => ""⟩ 15000 "fav" 1
      { policy := Policy.initial, favorites := [Json.num 1], sessionStart := 0,
        currentVariant := some ⟨"A", ["dense", "small-cards"], "dark",
          "Dense + Small Cards + Dark"⟩,
        currentCtx := some (context 12 800 false),
        storage := fun _ => none }).policy.q "A|day|medium|L" = some (5 / 2) := by
  have h := favorite_reward_both_directions ⟨fun _ => "", fun _ => ""⟩ 15000 1
    { policy := Policy.initial, favorites := [Json.num 1], sessionStart := 0,
      currentVariant := some ⟨"A", ["dense", "small-cards"], "dark",
        "Dense + Small Cards + Dark"⟩,
      currentCtx := some (context 12 800 false),
      storage := fun _ => none }
    ⟨"A", ["dense", "small-cards"], "dark", "Dense + Small Cards + Dark"⟩
    (context 12 800 false) rfl rfl
  have hk : k "A" (context 12 800 false) = "A|day|medium|L" := by decide
  constructor
  · rw [(h.2.2.2 (by simp [setHas, sameValueZero])).1]
    simp [setDelete, sameValueZero]
  · rw [h.2.1, updatePolicy, hk]
    norm_num [assign, Policy.initial, dwellBonus]

end AdaptiveUI
